import Mathlib

/-!
Verification development for the searchHouse crawler (package `spider`,
files src/spider/spider.go and src/main.go).

The Go code is shallowly embedded: pure helper functions become Lean
functions on `String`/`List Char`/`Nat`/`Int`; the 64-bit FNV-1a hash is
modelled on `Nat` with explicit reduction modulo 2^64; the fallible parts
of `constructProperURLs` (Go panics on out-of-range string indexing)
return `Option`.  External collaborators (the WordPress host-eligibility
check backed by HTTP, `net/url` hostname parsing, fingerprint generation
from a page body) are passed in as oracle parameters, as the spec treats
them (spec section 1, OUT OF SCOPE).  The `common` package (WebPage,
Fingerprints, Frontier) is not part of the provided sources; those
structures are modelled from the spec and marked as such in their doc
comments.
-/

set_option maxRecDepth 16384

namespace SearchHouse

/-- Suffix test on strings via their character lists (model of Go
strings.HasSuffix as used through the extension regexp). -/
def strEndsWith (s suffix : String) : Bool :=
  suffix.data.isSuffixOf s.data

/-- Prefix test on strings via their character lists (model of Go
strings.HasPrefix). -/
def strStartsWith (s pre : String) : Bool :=
  pre.data.isPrefixOf s.data

/-- The character class of the regexp shorthand \s as used by Go regexp
(`[^\s:/@]` in findHostName): tab, newline, form feed, carriage return
and space. -/
def regexSpace (c : Char) : Bool :=
  c = '\t' || c = '\n' || c = '\x0c' || c = '\r' || c = ' '

/-- Characters admitted inside the host run of the findHostName regexp
`https://[^\s:/@]+\.[^\s:/@]+`: everything except \s, colon, slash and
at-sign.  Note that the dot itself is a member of this class. -/
def hostRunChar (c : Char) : Bool :=
  !(regexSpace c || c = ':' || c = '/' || c = '@')

/-- True when the list has a dot at some index i with 1 <= i <= length-2,
i.e. a dot strictly inside the run with at least one character on each
side.  This is exactly the condition under which the backtracking search
for `[^\s:/@]+\.[^\s:/@]+` succeeds inside a maximal run of host
characters, in which case the greedy match covers the whole run. -/
def hasInnerDot (run : List Char) : Bool :=
  ((run.drop 1).dropLast).contains '.'

/-- The character list of the literal "https://". -/
def httpsPrefix : List Char := "https://".data

/-- Leftmost-match search of the Go regexp `https://[^\s:/@]+\.[^\s:/@]+`
over a character list (spider.go findHostName).  At each position where
the literal "https://" occurs, the run of host characters that follows is
examined; the regexp matches there iff the run has an inner dot
(`hasInnerDot`), and then the greedy quantifiers make the match span the
entire run.  Since ':' and '/' are excluded from the run, no occurrence
of "https://" can begin inside a run, so advancing one character at a
time is a faithful model of the engine trying successive start
positions. -/
def findHostNameAux : List Char → Option (List Char)
  | [] => none
  | c :: rest =>
    if httpsPrefix.isPrefixOf (c :: rest) then
      let run := ((c :: rest).drop 8).takeWhile hostRunChar
      if hasInnerDot run then some (httpsPrefix ++ run)
      else findHostNameAux rest
    else findHostNameAux rest

/-- spider.go findHostName: first match of the domain regexp, or the
empty string when there is no match (the Go code returns "" when
FindAllStringSubmatch comes back empty). -/
def findHostName (s : String) : String :=
  match findHostNameAux s.data with
  | some l => String.mk l
  | none => ""

/-- The extensions enumerated by the blocklist regexp of urlValid, with
`jpe?g` expanded to jpg/jpeg and `tiff?` to tif/tiff. -/
def extList : List String :=
  ["css", "js", "bmp", "gif", "jpg", "jpeg", "ico", "png", "tif", "tiff",
   "mid", "mp2", "mp3", "mp4", "ppsx", "wav", "avi", "mov", "mpeg", "ram",
   "m4v", "mkv", "ogg", "ogv", "pdf", "odc", "sas", "ps", "eps", "tex",
   "ppt", "pptx", "doc", "docx", "xls", "xlsx", "names", "data", "dat",
   "exe", "bz2", "tar", "msi", "bin", "7z", "psd", "dmg", "iso", "epub",
   "dll", "cnf", "tgz", "sha1", "ss", "scm", "py", "rkt", "r", "c",
   "thmx", "mso", "arff", "rtf", "jar", "csv", "java", "txt", "rm",
   "smil", "wmv", "swf", "wma", "zip", "rar", "gz"]

/-- Model of `extRe.MatchString s` for the blocklist regexp
`.*\.(?:css|...|gz)$`.  Because the match may start anywhere, the leading
`.*` may be empty and `$` anchors at end of text, a match exists iff the
string ends with a dot followed by one of the listed extensions. -/
def extMatch (s : String) : Bool :=
  extList.any fun e => strEndsWith s ("." ++ e)

/-- Model of Go strings.ToLower restricted to its ASCII action
(Char.toLower lowers exactly the ASCII uppercase letters).  All strings
this development evaluates it on are ASCII, and no non-ASCII character
lowers to '.', to a digit or to an ASCII letter that could complete an
extension suffix, so the extension check is unaffected. -/
def goToLower (s : String) : String :=
  String.mk (s.data.map Char.toLower)

/-- Character class `[-a-zA-Z0-9@:%._+~#=]` (hostname part of the
urlValid regexp). -/
def urlHostChar (c : Char) : Bool :=
  c = '-' || ('a' ≤ c && c ≤ 'z') || ('A' ≤ c && c ≤ 'Z') ||
  ('0' ≤ c && c ≤ '9') || c = '@' || c = ':' || c = '%' || c = '.' ||
  c = '_' || c = '+' || c = '~' || c = '#' || c = '='

/-- Character class `[a-zA-Z0-9()]` (top-level-domain part of the
urlValid regexp). -/
def urlTldChar (c : Char) : Bool :=
  ('a' ≤ c && c ≤ 'z') || ('A' ≤ c && c ≤ 'Z') ||
  ('0' ≤ c && c ≤ '9') || c = '(' || c = ')'

/-- Character class `[-a-zA-Z0-9()@:_+~?=/]` (resource part of the
urlValid regexp).  Unlike the hostname class it has no dot, percent or
hash sign. -/
def urlResChar (c : Char) : Bool :=
  c = '-' || ('a' ≤ c && c ≤ 'z') || ('A' ≤ c && c ≤ 'Z') ||
  ('0' ≤ c && c ≤ '9') || c = '(' || c = ')' || c = '@' || c = ':' ||
  c = '_' || c = '+' || c = '~' || c = '?' || c = '=' || c = '/'

/-- Model of `urlRe.MatchString s` for the anchored regexp of spider.go
urlValid, whose body is
https:// then 1..256 hostname characters, a literal dot, 1..6 TLD
characters, then any number of resource characters, anchored at both
ends.  main.go wraps the same three pieces in named capture groups,
which does not change the matched language, so both files share this
matcher.  An anchored match exists iff the string splits as
https:// ++ a ++ "." ++ b ++ c with a, b of the bounded lengths drawn
from their classes and c drawn from the resource class; the decider
searches all split points. -/
def urlReMatch (s : String) : Bool :=
  let l := s.data
  httpsPrefix.isPrefixOf l &&
  (let rest := l.drop 8
   (List.range' 1 256).any fun i =>
     (List.range' 1 6).any fun j =>
       decide (i + 1 + j ≤ rest.length) &&
       (rest.take i).all urlHostChar &&
       (rest.get? i = some '.') &&
       ((rest.drop (i + 1)).take j).all urlTldChar &&
       (rest.drop (i + 1 + j)).all urlResChar)

/-- The UTF-8 encoding of one character as byte values, as produced by
Go []byte(str) on each rune and by Lean String.toUTF8. -/
def utf8Bytes (c : Char) : List Nat :=
  let n := c.toNat
  if n < 0x80 then [n]
  else if n < 0x800 then [0xC0 + n / 0x40, 0x80 + n % 0x40]
  else if n < 0x10000 then
    [0xE0 + n / 0x1000, 0x80 + (n / 0x40) % 0x40, 0x80 + n % 0x40]
  else
    [0xF0 + n / 0x40000, 0x80 + (n / 0x1000) % 0x40,
     0x80 + (n / 0x40) % 0x40, 0x80 + n % 0x40]

/-- The UTF-8 byte sequence of a string. -/
def strBytes (s : String) : List Nat :=
  (s.data.map utf8Bytes).flatten

/-- One step of FNV-1a on 64 bits: xor in the byte, multiply by the FNV
prime 1099511628211, reduce modulo 2^64 (hash/fnv New64a().Write). -/
def fnv1aStep (h b : Nat) : Nat :=
  ((Nat.xor h b) * 1099511628211) % 2 ^ 64

/-- spider.go hash: the unsigned 64-bit FNV-1a hash of the UTF-8 bytes
of a string, starting from the offset basis 14695981039346656037. -/
def fnv1a (s : String) : Nat :=
  (strBytes s).foldl fnv1aStep 14695981039346656037

/-- Go unicode.IsSpace: the Unicode White_Space property, i.e. code
points U+0009 to U+000D, U+0020, U+0085, U+00A0, U+1680, U+2000 to
U+200A, U+2028, U+2029, U+202F, U+205F and U+3000. -/
def goIsSpace (c : Char) : Bool :=
  let n := c.toNat
  (9 ≤ n && n ≤ 13) || n = 32 || n = 133 || n = 160 || n = 0x1680 ||
  (0x2000 ≤ n && n ≤ 0x200A) || n = 0x2028 || n = 0x2029 ||
  n = 0x202F || n = 0x205F || n = 0x3000

/-- Go strings.TrimLeftFunc(s, unicode.IsSpace): drop the leading run of
white-space characters. -/
def goTrimLeft (s : String) : String :=
  String.mk (s.data.dropWhile goIsSpace)

/-- Modelled from the spec: the Page record of spec section 3,
`{url, fetchedAtUnixTime, httpStatus, body, fingerprintSet}`.  The
WebPage type lives in the common package, which is not among the
provided sources.  Fingerprint generation from the body
(GenerateFingerprints) is an external collaborator here; a page carries
its fingerprint set as data. -/
structure WebPage where
  fetchedAt : Int
  url : String
  status : String
  body : String
  fingerprints : List Nat
deriving DecidableEq

/-- Modelled from the spec: the Fingerprint Index of spec section 3, a
mapping from fingerprint hash to the set of pages that produced it,
together with the shingle width and capacity parameters of
NewFingerprints(3, 10000).  The index is represented by the list of
admitted pages; the hash-to-pages mapping is recovered by
`lookupPages`.  The common package holding the Go type is not among the
provided sources. -/
structure Fingerprints where
  shingleWidth : Nat
  capacity : Nat
  pages : List WebPage
deriving DecidableEq

/-- Modelled from the spec: common.NewFingerprints(k, capacity) creates
an empty index. -/
def NewFingerprints (k capacity : Nat) : Fingerprints :=
  ⟨k, capacity, []⟩

/-- Modelled from the spec: GetFingerprintsAsSet viewed at one hash, the
set of already-admitted pages whose fingerprint set contains the hash
(spec section 3: mapping fingerprintHash to the set of pages that
produced it). -/
def lookupPages (fp : Fingerprints) (h : Nat) : List WebPage :=
  fp.pages.filter fun p => p.fingerprints.contains h

/-- Modelled from the spec: InsertFingerprintsUsingWebpage / Admit
(spec section 4.3) inserts every fingerprint of the page into the index,
each pointing back to the page; in the admitted-page representation this
is appending the page. -/
def insertFingerprints (fp : Fingerprints) (wp : WebPage) : Fingerprints :=
  ⟨fp.shingleWidth, fp.capacity, fp.pages ++ [wp]⟩

/-- The size of the intersection of two fingerprint sets carried as
lists: the number of distinct elements of a that also occur in b. -/
def interCount (a b : List Nat) : Nat :=
  (a.dedup.filter fun h => b.contains h).length

/-- The size of the union of two fingerprint sets carried as lists. -/
def unionCount (a b : List Nat) : Nat :=
  ((a ++ b).dedup).length

/-- Modelled from the spec: Similarity is the Jaccard index
|A ∩ B| / |A ∪ B| of the two fingerprint sets (spec section 4.3),
computed here in exact rationals.  For two empty sets the division by
zero yields 0, the behaviour the spec recommends. -/
def similarity (a b : List Nat) : ℚ :=
  (interCount a b : ℚ) / (unionCount a b : ℚ)

/-- The test similarity(a, b) > 0.9 in the executable cross-multiplied
form 9·|A ∪ B| < 10·|A ∩ B|; `similarity_gt_iff` below proves it equal
to the rational comparison. -/
def simGtNineTenths (a b : List Nat) : Bool :=
  decide (9 * unionCount a b < 10 * interCount a b)

/-- spider.go duplicateExists: for every fingerprint hash of the
candidate, look up the pages of the index co-occurring at that hash; the
candidate is a duplicate as soon as one such page has a different URL
and Jaccard similarity above 0.9 (the source compares the float
wp.Similarity(page) with the literal 0.9; the comparison is exact
here). -/
def duplicateExists (fp : Fingerprints) (wp : WebPage) : Bool :=
  wp.fingerprints.any fun h =>
    (lookupPages fp h).any fun page =>
      page.url != wp.url &&
      simGtNineTenths wp.fingerprints page.fingerprints

/-- spider.go validPage: strip leading white space from the body and
accept exactly the prefixes "<!DOCTYPE html" and "<!doctype html". -/
def validPage (wp : WebPage) : Bool :=
  let trimmedBody := goTrimLeft wp.body
  strStartsWith trimmedBody "<!DOCTYPE html" ||
  strStartsWith trimmedBody "<!doctype html"

/-- spider.go urlValid.  The WordPress eligibility probe
(isWordPressWebsite, an HTTP call with an LRU cache) and the net/url
hostname parser (getHostname) are external collaborators passed as the
oracles isWp and hostOf, as the spec directs (section 1, OUT OF SCOPE:
IsEligibleHost). -/
def urlValid (isWp : String → Bool) (hostOf : String → String)
    (url : String) : Bool :=
  if urlReMatch url && !(extMatch (goToLower url)) then isWp (hostOf url)
  else false

/-- main.go urlValid (legacy copy): the same regexps written with named
capture groups, and the eligibility call wrapped in an if/else that
returns the same boolean. -/
def urlValidLegacy (isWp : String → Bool) (hostOf : String → String)
    (url : String) : Bool :=
  if urlReMatch url && !(extMatch (goToLower url)) then
    if isWp (hostOf url) then true else false
  else false

/-- spider.go StringSet: a Go map[string]bool used as a set; modelled by
its key list, kept duplicate-free by `StringSet.add`. -/
structure StringSet where
  m : List String
deriving DecidableEq

/-- The zero value of StringSet (nil map). -/
def emptyStringSet : StringSet := ⟨[]⟩

/-- StringSet.Add: map assignment m[str] = true. -/
def StringSet.add (s : StringSet) (x : String) : StringSet :=
  if s.m.contains x then s else ⟨x :: s.m⟩

/-- StringSet.Contains: map lookup. -/
def StringSet.containsKey (s : StringSet) (x : String) : Bool :=
  s.m.contains x

/-- Go strings.TrimSuffix(s, "/"): remove one trailing slash when
present. -/
def goTrimSuffixSlash (s : String) : String :=
  if strEndsWith s "/" then String.mk (s.data.dropLast) else s

/-- The loop body of spider.go constructProperURLs.  Go indexes
urlStr[0] with no emptiness check, which panics on an empty href; the
panic is modelled by `none`.  The byte test urlStr[0] == '/' agrees with
the first-character test because '/' is a single UTF-8 byte. -/
def properURLsLoop (isWp : String → Bool) (hostOf : String → String)
    (hostName : String) : List String → StringSet → Option StringSet
  | [], acc => some acc
  | u :: rest, acc =>
    match u.data with
    | [] => none
    | c :: _ =>
      let parsedURL := if c = '/' then hostName ++ u else goTrimSuffixSlash u
      if urlValid isWp hostOf parsedURL then
        properURLsLoop isWp hostOf hostName rest (acc.add parsedURL)
      else
        properURLsLoop isWp hostOf hostName rest acc

/-- spider.go constructProperURLs: resolve each href against the root
hostname found by findHostName, keep those that pass urlValid, return
the set; when the root has no hostname, return the empty set before
touching any href. -/
def constructProperURLs (isWp : String → Bool) (hostOf : String → String)
    (urls : List String) (root : String) : Option StringSet :=
  let hostName := findHostName root
  if hostName = "" then some emptyStringSet
  else properURLsLoop isWp hostOf hostName urls emptyStringSet

/-- Model of filepath.Join for the shapes writeToDisk uses: the
configured directory joined with a clean file name component.  For a
nonempty directory Join inserts the separator; Join("", name) is
Clean(name) = name for the digit-and-dot-json components produced
here. -/
def goFilepathJoin (dir name : String) : String :=
  if dir = "" then name else dir ++ "/" ++ name

/-- spider.go writeToDisk, reduced to the file name it creates:
filepath.Join(workingDirectory, strconv.FormatUint(hash(url), 10) +
".json"). -/
def writeToDiskFileName (dir url : String) : String :=
  goFilepathJoin dir (Nat.repr (fnv1a url) ++ ".json")

/-- Go int(h) for h a uint64, on a 64-bit platform: reinterpret the bits
as a two's-complement signed integer. -/
def goInt64 (h : Nat) : Int :=
  if h < 2 ^ 63 then (h : Int) else (h : Int) - 2 ^ 64

/-- Go unary negation on int64: wraps, so the negation of the minimum
value is itself. -/
def goNeg64 (v : Int) : Int :=
  if v = -(2 ^ 63) then v else -v

/-- spider.go abs: branch on the sign and negate with Go semantics. -/
def goAbs (v : Int) : Int :=
  if v < 0 then goNeg64 v else v

/-- Go % on int: truncated division, remainder takes the sign of the
dividend. -/
def goMod (a b : Int) : Int :=
  Int.tmod a b

/-- spider.go calcWebsiteToRoutineNum:
abs(int(hash(findHostName(url)))) % numRoutines. -/
def calcWebsiteToRoutineNum (numRoutines : Int) (url : String) : Int :=
  goMod (goAbs (goInt64 (fnv1a (findHostName url)))) numRoutines

/-- The observable outcome of one HTTP fetch in the crawl loop: the
response status as http.Get reports it, and the io.ReadAll outcome on
the body (`none` models a read error).  A whole-fetch `none` in
`CrawlEnv.response` models err != nil from http.Get. -/
structure FetchResp where
  status : String
  body : Option String
deriving DecidableEq

/-- The environment one iteration of the Crawl loop observes: the URL
returned by frontier.PopURL, the pageDownloaded answer from the page
store, and the network response. -/
structure CrawlEnv where
  poppedUrl : String
  downloaded : Bool
  response : Option FetchResp
deriving DecidableEq

/-- What one iteration of the Crawl loop does: how many seconds it
sleeps before the next poll, whether the page was admitted (fingerprints
registered and page persisted), and the worker-local fingerprint index
after the iteration. -/
structure IterResult where
  sleepSeconds : Nat
  admitted : Bool
  fp : Fingerprints
deriving DecidableEq

/-- One iteration of the for-loop of spider.go Crawl, with the network,
page store and clock abstracted into `env` and `now`, and fingerprint
generation from the body abstracted into `gen` (the common package is
not among the provided sources).  The control flow follows the source:
an empty poll sleeps 1s; an invalid URL or an already-downloaded URL
loops immediately; a fetch error, a non-200 status or a body read error
sleeps 5s; a page failing validPage or flagged by duplicateExists hits
`continue`, which skips the sleep at the bottom of the fetch block; an
admitted page is inserted into the worker-local index and the iteration
ends with the 5s sleep. -/
def crawlIteration (isWp : String → Bool) (hostOf : String → String)
    (gen : String → List Nat) (now : Int) (fp : Fingerprints)
    (env : CrawlEnv) : IterResult :=
  if env.poppedUrl = "" then ⟨1, false, fp⟩
  else if !urlValid isWp hostOf env.poppedUrl then ⟨0, false, fp⟩
  else if env.downloaded then ⟨0, false, fp⟩
  else
    match env.response with
    | none => ⟨5, false, fp⟩
    | some r =>
      if r.status = "200 OK" then
        match r.body with
        | none => ⟨5, false, fp⟩
        | some b =>
          let page : WebPage := ⟨now, env.poppedUrl, r.status, b, gen b⟩
          if !validPage page || duplicateExists fp page then ⟨0, false, fp⟩
          else ⟨5, true, insertFingerprints fp page⟩
      else ⟨5, false, fp⟩

/-- The dedup-relevant state of the whole spider: every worker routine
owns the Fingerprints value it created at the top of its own Crawl
invocation (spider.go Crawl: fp := common.NewFingerprints(3, 10000)
inside the goroutine body, before the loop). -/
def SpiderState : Type := Nat → Fingerprints

/-- The state right after CrawlConcurrently launches the workers: every
worker has the fresh index NewFingerprints(3, 10000) of its own. -/
def initSpiderState : SpiderState := fun _ => NewFingerprints 3 10000

/-- Worker w runs one iteration of its Crawl loop: only the index of
worker w is threaded through crawlIteration, every other worker keeps
its own index untouched. -/
def crawlWorkerStep (isWp : String → Bool) (hostOf : String → String)
    (gen : String → List Nat) (now : Int) (st : SpiderState) (w : Nat)
    (env : CrawlEnv) : SpiderState :=
  fun i =>
    if i = w then (crawlIteration isWp hostOf gen now (st w) env).fp
    else st i

/-- The executable cross-multiplied threshold test agrees with the
rational comparison similarity > 0.9. -/
theorem similarity_gt_iff (a b : List Nat) :
    simGtNineTenths a b = true ↔ (9 : ℚ) / 10 < similarity a b := by
  unfold simGtNineTenths similarity
  rcases Nat.eq_zero_or_pos (unionCount a b) with hU | hU
  · have ha : a = [] := by
      have h2 : a ++ b = [] := by
        have h1 : (a ++ b).dedup = [] := List.length_eq_zero.mp hU
        exact (List.dedup_eq_nil _).mp h1
      exact (List.append_eq_nil.mp h2).1
    have hI : interCount a b = 0 := by simp [interCount, ha]
    rw [hU, hI]
    norm_num
  · rw [decide_eq_true_eq]
    have hU2 : (0 : ℚ) < (unionCount a b : ℚ) := by exact_mod_cast hU
    rw [div_lt_div_iff₀ (by norm_num) hU2]
    rw [show (9 : ℚ) * (unionCount a b : ℚ) = ((9 * unionCount a b : ℕ) : ℚ) by push_cast; ring]
    rw [show (interCount a b : ℚ) * 10 = ((10 * interCount a b : ℕ) : ℚ) by push_cast; ring]
    exact (Nat.cast_lt (α := ℚ)).symm

/-- The FNV-1a hash value is a 64-bit unsigned quantity. -/
theorem fnv1a_lt (s : String) : fnv1a s < 2 ^ 64 := by
  suffices h : ∀ (l : List Nat) (h0 : Nat), h0 < 2 ^ 64 →
      List.foldl fnv1aStep h0 l < 2 ^ 64 by
    exact h (strBytes s) 14695981039346656037 (by norm_num)
  intro l
  induction l with
  | nil => intro h0 hh; simpa using hh
  | cons b tl ih =>
    intro h0 hh
    rw [List.foldl_cons]
    exact ih (fnv1aStep h0 b) (Nat.mod_lt _ (by positivity))

/-- The FNV-1a offset basis on the empty input, matching the published
test vector for 64-bit FNV-1a. -/
theorem fnv1a_empty : fnv1a "" = 14695981039346656037 := by decide

/-- The published 64-bit FNV-1a test vector for the one-byte input
"a" (0xaf63dc4c8601ec8c). -/
theorem fnv1a_letter_a : fnv1a "a" = 12638187200555641996 := by decide

/-- Membership after StringSet.add comes from the added key or from the
original set. -/
theorem StringSet.containsKey_add (acc : StringSet) (y x : String)
    (h : (acc.add y).containsKey x = true) :
    x = y ∨ acc.containsKey x = true := by
  unfold StringSet.add at h
  by_cases hy : acc.m.contains y
  · rw [if_pos hy] at h
    right; exact h
  · rw [if_neg hy] at h
    unfold StringSet.containsKey at h ⊢
    simpa using h

/-- Every member of the set produced by the constructProperURLs loop is
either a member of the accumulator or a URL accepted by urlValid. -/
theorem properURLsLoop_mem (isWp : String → Bool) (hostOf : String → String)
    (hostName : String) :
    ∀ (urls : List String) (acc res : StringSet),
      properURLsLoop isWp hostOf hostName urls acc = some res →
      ∀ x, res.containsKey x = true →
        acc.containsKey x = true ∨ urlValid isWp hostOf x = true := by
  intro urls
  induction urls with
  | nil =>
    intro acc res h x hx
    unfold properURLsLoop at h
    cases h
    left; exact hx
  | cons u rest ih =>
    intro acc res h x hx
    unfold properURLsLoop at h
    cases hu : u.data with
    | nil => rw [hu] at h; cases h
    | cons c cs =>
      rw [hu] at h
      dsimp only at h
      by_cases hv :
          urlValid isWp hostOf
            (if c = '/' then hostName ++ u else goTrimSuffixSlash u) = true
      · rw [if_pos hv] at h
        rcases ih _ _ h x hx with hmem | hval
        · rcases StringSet.containsKey_add _ _ _ hmem with heq | hacc
          · right; rw [heq]; exact hv
          · left; exact hacc
        · right; exact hval
      · rw [if_neg hv] at h
        exact ih _ _ h x hx

/-- The constructProperURLs loop never panics when every href in the
list is nonempty. -/
theorem properURLsLoop_total (isWp : String → Bool) (hostOf : String → String)
    (hostName : String) :
    ∀ (urls : List String) (acc : StringSet),
      (∀ u ∈ urls, u ≠ "") →
      (properURLsLoop isWp hostOf hostName urls acc).isSome = true := by
  intro urls
  induction urls with
  | nil => intro acc _; rfl
  | cons u rest ih =>
    intro acc h
    unfold properURLsLoop
    cases hu : u.data with
    | nil =>
      exfalso
      apply h u (List.mem_cons_self u rest)
      cases u with
      | mk l => cases hu; rfl
    | cons c cs =>
      dsimp only
      have hrest : ∀ v ∈ rest, v ≠ "" := fun v hv => h v (List.mem_cons_of_mem u hv)
      by_cases hv :
          urlValid isWp hostOf
            (if c = '/' then hostName ++ u else goTrimSuffixSlash u) = true
      · rw [if_pos hv]; exact ih _ hrest
      · rw [if_neg hv]; exact ih _ hrest

/-- Boolean list containment agrees with membership. -/
theorem contains_true_iff (l : List Nat) (a : Nat) :
    l.contains a = true ↔ a ∈ l := by
  simp

/-- C1 counterexample.  The claim says the near-duplicate check compares
a fresh page against the fingerprints of every page previously admitted
by any worker.  In the code each Crawl goroutine creates its own
Fingerprints value, so after worker 0 admits page A
(https://a.bc/x, fingerprints [1,2,3]), worker 1 runs the check on a
page with a different URL and Jaccard similarity 1 to A and the check
does not flag it: worker 1 admits the near-duplicate as well, while
the same check against worker 0's index would have flagged it. -/
theorem c1_counterexample :
    (crawlIteration (fun _ => true) (fun _ => "a.bc") (fun _ => [1, 2, 3]) 0
        (initSpiderState 0)
        ⟨"https://a.bc/x", false, some ⟨"200 OK", some "<!DOCTYPE html>A"⟩⟩).admitted
      = true ∧
    duplicateExists
        (crawlWorkerStep (fun _ => true) (fun _ => "a.bc") (fun _ => [1, 2, 3]) 0
          initSpiderState 0
          ⟨"https://a.bc/x", false, some ⟨"200 OK", some "<!DOCTYPE html>A"⟩⟩ 1)
        ⟨0, "https://a.bc/y", "200 OK", "<!DOCTYPE html>B", [1, 2, 3]⟩ = false ∧
    duplicateExists
        (crawlWorkerStep (fun _ => true) (fun _ => "a.bc") (fun _ => [1, 2, 3]) 0
          initSpiderState 0
          ⟨"https://a.bc/x", false, some ⟨"200 OK", some "<!DOCTYPE html>A"⟩⟩ 0)
        ⟨0, "https://a.bc/y", "200 OK", "<!DOCTYPE html>B", [1, 2, 3]⟩ = true ∧
    (9 : ℚ) / 10 < similarity [1, 2, 3] [1, 2, 3] := by
  refine ⟨by decide, by decide, by decide, ?_⟩
  exact (similarity_gt_iff _ _).mp (by decide)

/-- C1, amended: each worker owns the Fingerprints index it created at
the top of its own Crawl invocation.  A step of worker w leaves every
other worker's index untouched, and the step of worker w is a function
of worker w's own index alone, so the near-duplicate check consults only
pages previously admitted by the same worker. -/
theorem c1_worker_local_index (isWp : String → Bool) (hostOf : String → String)
    (gen : String → List Nat) (now : Int) (st st2 : SpiderState) (w : Nat)
    (env : CrawlEnv) (i : Nat) (hi : i ≠ w) (hw : st w = st2 w) :
    crawlWorkerStep isWp hostOf gen now st w env i = st i ∧
    crawlWorkerStep isWp hostOf gen now st w env w =
      crawlWorkerStep isWp hostOf gen now st2 w env w := by
  constructor
  · unfold crawlWorkerStep
    rw [if_neg hi]
  · unfold crawlWorkerStep
    rw [if_pos rfl, if_pos rfl, hw]

/-- Witness for c1_worker_local_index at worker 0, observer 1, equal
local indices. -/
theorem c1_worker_local_index_witness :
    crawlWorkerStep (fun _ => true) (fun _ => "a.bc") (fun _ => [1]) 0
        initSpiderState 0 ⟨"", false, none⟩ 1 = initSpiderState 1 ∧
    crawlWorkerStep (fun _ => true) (fun _ => "a.bc") (fun _ => [1]) 0
        initSpiderState 0 ⟨"", false, none⟩ 0 =
      crawlWorkerStep (fun _ => true) (fun _ => "a.bc") (fun _ => [1]) 0
        initSpiderState 0 ⟨"", false, none⟩ 0 :=
  c1_worker_local_index (fun _ => true) (fun _ => "a.bc") (fun _ => [1]) 0
    initSpiderState initSpiderState 0 ⟨"", false, none⟩ 1 (by decide) rfl

/-- C2 counterexample.  The claim declares a duplicate as soon as some
indexed page shares a fingerprint and has Jaccard similarity above 0.9,
with no condition on the URL; duplicateExists additionally requires
page.Url != wp.Url, so a candidate whose URL equals the indexed page's
URL is not flagged even at similarity 1. -/
theorem c2_counterexample :
    ¬ (duplicateExists
          ⟨3, 10000, [⟨0, "https://a.bc/x", "200 OK", "<!DOCTYPE html>x", [1, 2, 3]⟩]⟩
          ⟨0, "https://a.bc/x", "200 OK", "<!DOCTYPE html>y", [1, 2, 3]⟩ = true ↔
        ∃ p ∈ (⟨3, 10000,
            [⟨0, "https://a.bc/x", "200 OK", "<!DOCTYPE html>x", [1, 2, 3]⟩]⟩ : Fingerprints).pages,
          (∃ h ∈ [1, 2, 3], h ∈ p.fingerprints) ∧
          (9 : ℚ) / 10 < similarity [1, 2, 3] p.fingerprints) := by
  simp only [← similarity_gt_iff]
  decide

/-- C2, amended: duplicateExists returns true iff some page already in
the index has a different URL from the candidate, shares at least one
fingerprint with it, and the full-set Jaccard similarity of the two
fingerprint sets exceeds 0.9. -/
theorem c2_duplicate_iff (fp : Fingerprints) (wp : WebPage) :
    duplicateExists fp wp = true ↔
      ∃ p ∈ fp.pages, p.url ≠ wp.url ∧
        (∃ h ∈ wp.fingerprints, h ∈ p.fingerprints) ∧
        (9 : ℚ) / 10 < similarity wp.fingerprints p.fingerprints := by
  unfold duplicateExists lookupPages
  simp only [← similarity_gt_iff, List.any_eq_true, List.mem_filter,
    Bool.and_eq_true, bne_iff_ne, contains_true_iff, decide_eq_true_eq]
  constructor
  · rintro ⟨h, hh, page, ⟨hpage, hshare⟩, hne, hsim⟩
    exact ⟨page, hpage, hne, ⟨h, hh, hshare⟩, hsim⟩
  · rintro ⟨page, hpage, hne, ⟨h, hh, hshare⟩, hsim⟩
    exact ⟨h, hh, page, ⟨hpage, hshare⟩, hne, hsim⟩

/-- C3: the shard router is a function of the hostname extracted by
findHostName, so two URLs with the same extracted hostname land on the
same shard for every fixed shard count. -/
theorem c3_same_hostname_same_shard (numRoutines : Int) (u1 u2 : String)
    (h : findHostName u1 = findHostName u2) :
    calcWebsiteToRoutineNum numRoutines u1 =
      calcWebsiteToRoutineNum numRoutines u2 := by
  unfold calcWebsiteToRoutineNum
  rw [h]

/-- Witness for c3_same_hostname_same_shard on two URLs of the host
a.bc and 7 shards. -/
theorem c3_same_hostname_same_shard_witness :
    findHostName "https://a.bc/x" = findHostName "https://a.bc/y" ∧
    calcWebsiteToRoutineNum 7 "https://a.bc/x" =
      calcWebsiteToRoutineNum 7 "https://a.bc/y" :=
  ⟨by decide, c3_same_hostname_same_shard 7 "https://a.bc/x" "https://a.bc/y" (by decide)⟩

/-- C4 counterexample.  The claim accepts every casing of the doctype
prefix; validPage rejects the body "<!DocType HTML><html></html>" even
though, lowercased, its trimmed body begins with the doctype prefix. -/
theorem c4_counterexample :
    validPage ⟨0, "https://a.bc", "200 OK", "<!DocType HTML><html></html>", []⟩ = false ∧
    strStartsWith (goToLower (goTrimLeft "<!DocType HTML><html></html>"))
      "<!doctype html" = true := by
  decide

/-- C4, amended: validPage accepts a body iff, after stripping leading
white space, it begins with one of exactly the two casings
"<!DOCTYPE html" and "<!doctype html". -/
theorem c4_validPage_iff (wp : WebPage) :
    validPage wp = true ↔
      (strStartsWith (goTrimLeft wp.body) "<!DOCTYPE html" = true ∨
       strStartsWith (goTrimLeft wp.body) "<!doctype html" = true) := by
  unfold validPage
  rw [Bool.or_eq_true]

/-- C5 counterexample.  The claim says a worker sleeps 5 seconds when a
fetched body fails HTML validation; in the code the continue statement
skips the sleep at the bottom of the fetch block, so the iteration
sleeps 0 seconds. -/
theorem c5_counterexample :
    validPage ⟨0, "https://a.bc/x", "200 OK", "hello", [1]⟩ = false ∧
    (crawlIteration (fun _ => true) (fun _ => "a.bc") (fun _ => [1]) 0
        (NewFingerprints 3 10000)
        ⟨"https://a.bc/x", false, some ⟨"200 OK", some "hello"⟩⟩).sleepSeconds = 0 := by
  decide

/-- C5, amended: when the fetched 200-OK body is read and the page then
fails HTML validation or is declared a near-duplicate, the worker
returns to Poll immediately: it sleeps 0 seconds, admits nothing and
leaves its index unchanged. -/
theorem c5_skip_goes_straight_to_poll (isWp : String → Bool)
    (hostOf : String → String) (gen : String → List Nat) (now : Int)
    (fp : Fingerprints) (url b : String) (h1 : url ≠ "")
    (h2 : urlValid isWp hostOf url = true)
    (h3 : (!validPage ⟨now, url, "200 OK", b, gen b⟩ ||
           duplicateExists fp ⟨now, url, "200 OK", b, gen b⟩) = true) :
    crawlIteration isWp hostOf gen now fp
        ⟨url, false, some ⟨"200 OK", some b⟩⟩ = ⟨0, false, fp⟩ := by
  simp [crawlIteration, h1, h2, h3]

/-- Witness for c5_skip_goes_straight_to_poll on a 200-OK fetch whose
body fails the doctype check. -/
theorem c5_skip_goes_straight_to_poll_witness :
    crawlIteration (fun _ => true) (fun _ => "a.bc") (fun _ => [1]) 0
        (NewFingerprints 3 10000)
        ⟨"https://a.bc/x", false, some ⟨"200 OK", some "hello"⟩⟩ =
      ⟨0, false, NewFingerprints 3 10000⟩ :=
  c5_skip_goes_straight_to_poll (fun _ => true) (fun _ => "a.bc") (fun _ => [1]) 0
    (NewFingerprints 3 10000) "https://a.bc/x" "hello" (by decide) (by decide) (by decide)

/-- C6: a URL that, lowercased, ends in a blocklisted extension fails
urlValid under every eligibility oracle, and link discovery never puts
it into the set handed to the Frontier, whatever href list a page body
yields and whatever the root URL is. -/
theorem c6_disallowed_ext_never_inserted (isWp : String → Bool)
    (hostOf : String → String) (url : String)
    (hext : extMatch (goToLower url) = true) :
    urlValid isWp hostOf url = false ∧
    ∀ (urls : List String) (root : String) (res : StringSet),
      constructProperURLs isWp hostOf urls root = some res →
      res.containsKey url = false := by
  have hv : urlValid isWp hostOf url = false := by
    unfold urlValid
    rw [hext]
    simp
  refine ⟨hv, ?_⟩
  intro urls root res hres
  unfold constructProperURLs at hres
  by_cases hh : findHostName root = ""
  · rw [if_pos hh] at hres
    cases hres
    rfl
  · rw [if_neg hh] at hres
    cases hck : res.containsKey url with
    | false => rfl
    | true =>
      exfalso
      rcases properURLsLoop_mem isWp hostOf (findHostName root) urls
          emptyStringSet res hres url hck with hmem | hval
      · exact Bool.false_ne_true hmem
      · rw [hv] at hval
        exact Bool.false_ne_true hval

/-- Witness for c6_disallowed_ext_never_inserted at the URL
https://site.test/doc.pdf of the spec scenario, with an oracle that
accepts every host, discovered from the root https://site.test. -/
theorem c6_disallowed_ext_never_inserted_witness :
    urlValid (fun _ => true) (fun _ => "site.test") "https://site.test/doc.pdf" = false ∧
    (constructProperURLs (fun _ => true) (fun _ => "site.test")
        ["https://site.test/doc.pdf"] "https://site.test" = some emptyStringSet ∧
      emptyStringSet.containsKey "https://site.test/doc.pdf" = false) := by
  have h := c6_disallowed_ext_never_inserted (fun _ => true) (fun _ => "site.test")
    "https://site.test/doc.pdf" (by decide)
  exact ⟨h.1, by decide, h.2 ["https://site.test/doc.pdf"] "https://site.test"
    emptyStringSet (by decide)⟩

/-- C7: for a nonempty page directory the persisted file name is the
directory, the path separator, then the decimal representation of the
64-bit FNV-1a hash of the URL followed by ".json"; the hash value fits
in an unsigned 64-bit integer. -/
theorem c7_persisted_file_name (dir url : String) (h : dir ≠ "") :
    writeToDiskFileName dir url =
      dir ++ "/" ++ Nat.repr (fnv1a url) ++ ".json" ∧
    fnv1a url < 2 ^ 64 := by
  constructor
  · unfold writeToDiskFileName goFilepathJoin
    rw [if_neg h]
    simp [String.append_assoc]
  · exact fnv1a_lt url

/-- Witness for c7_persisted_file_name at the directory "pages" and the
URL https://a.bc, whose FNV-1a hash is 1464954378043925278. -/
theorem c7_persisted_file_name_witness :
    writeToDiskFileName "pages" "https://a.bc" =
      "pages" ++ "/" ++ Nat.repr (fnv1a "https://a.bc") ++ ".json" ∧
    fnv1a "https://a.bc" < 2 ^ 64 :=
  c7_persisted_file_name "pages" "https://a.bc" (by decide)

/-- C9: constructProperURLs inspects the first byte of every href with
no emptiness guard.  When every href in the list is nonempty no
out-of-bounds access happens (the call returns a value); with an empty
href in the list and a root that has a hostname, the Go code panics,
modelled by none. -/
theorem c9_href_indexing_totality (isWp : String → Bool)
    (hostOf : String → String) (urls : List String) (root : String)
    (h : ∀ u ∈ urls, u ≠ "") :
    (constructProperURLs isWp hostOf urls root).isSome = true ∧
    constructProperURLs isWp hostOf [""] "https://a.bc" = none := by
  constructor
  · unfold constructProperURLs
    by_cases hh : findHostName root = ""
    · rw [if_pos hh]; rfl
    · rw [if_neg hh]
      exact properURLsLoop_total isWp hostOf (findHostName root) urls emptyStringSet h
  · unfold constructProperURLs
    rw [if_neg (by decide : ¬ findHostName "https://a.bc" = "")]
    rfl

/-- Witness for c9_href_indexing_totality on a two-element href list of
nonempty strings. -/
theorem c9_href_indexing_totality_witness :
    (constructProperURLs (fun _ => true) (fun _ => "a.bc")
        ["/x", "https://a.bc/y"] "https://a.bc").isSome = true ∧
    constructProperURLs (fun _ => true) (fun _ => "a.bc") [""] "https://a.bc" = none :=
  c9_href_indexing_totality (fun _ => true) (fun _ => "a.bc")
    ["/x", "https://a.bc/y"] "https://a.bc" (by decide)

/-- C10: the legacy urlValid of main.go and the current urlValid of
spider.go accept exactly the same URL strings when given the same
eligibility oracle and hostname parser.  The regexps differ only by
named capture groups, which do not change the matched language, and the
legacy if/else returns the same boolean as the direct call. -/
theorem c10_urlValid_legacy_equiv (isWp : String → Bool)
    (hostOf : String → String) (url : String) :
    urlValidLegacy isWp hostOf url = urlValid isWp hostOf url := by
  unfold urlValid urlValidLegacy
  by_cases h : (urlReMatch url && !extMatch (goToLower url)) = true
  · rw [if_pos h, if_pos h]
    cases isWp (hostOf url) <;> simp
  · rw [if_neg h, if_neg h]

/-- Context for the shard-range question: whenever the FNV-1a hash of
the extracted hostname is not exactly 2^63, the Go abs is nonnegative
and the shard number lies in {0, ..., numRoutines-1}.  At hash exactly
2^63 the two's-complement negation of the minimum int64 is itself, abs
returns a negative value, and the truncated remainder can be negative;
whether any hostname string attains that hash is a preimage question
this development does not settle. -/
theorem calcWebsiteToRoutineNum_in_range_of_ne (n : Int) (url : String)
    (hn : 1 ≤ n) (hne : fnv1a (findHostName url) ≠ 2 ^ 63) :
    0 ≤ calcWebsiteToRoutineNum n url ∧ calcWebsiteToRoutineNum n url < n := by
  have habs : 0 ≤ goAbs (goInt64 (fnv1a (findHostName url))) := by
    have hlt : fnv1a (findHostName url) < 2 ^ 64 := fnv1a_lt _
    unfold goInt64 goAbs goNeg64
    by_cases hsmall : fnv1a (findHostName url) < 2 ^ 63
    · rw [if_pos hsmall,
        if_neg (by simp : ¬ ((fnv1a (findHostName url) : Int) < 0))]
      exact Int.natCast_nonneg _
    · rw [if_neg hsmall]
      have hgt : (2 : Nat) ^ 63 < fnv1a (findHostName url) :=
        lt_of_le_of_ne (Nat.le_of_not_lt hsmall) (Ne.symm hne)
      have hv : (fnv1a (findHostName url) : Int) - 2 ^ 64 < 0 := by
        have : (fnv1a (findHostName url) : Int) < 2 ^ 64 := by exact_mod_cast hlt
        linarith
      rw [if_pos hv]
      have hvne : (fnv1a (findHostName url) : Int) - 2 ^ 64 ≠ -(2 ^ 63) := by
        intro hc
        apply hne
        have : (fnv1a (findHostName url) : Int) = 2 ^ 63 := by linarith
        exact_mod_cast this
      rw [if_neg hvne]
      linarith
  constructor
  · exact Int.tmod_nonneg n habs
  · exact Int.tmod_lt_of_pos _ (by linarith)

/-- At the excluded hash value the composition of int conversion, Go abs
and truncated remainder is negative for three shards, so range
membership for every URL is exactly the statement that no hostname
hashes to 2^63. -/
theorem goAbs_min_int64_edge :
    goAbs (goInt64 (2 ^ 63)) = -(2 ^ 63) ∧
    goMod (goAbs (goInt64 (2 ^ 63))) 3 = -2 := by
  constructor
  · unfold goInt64 goAbs goNeg64
    norm_num
  · unfold goMod goInt64 goAbs goNeg64
    norm_num
    decide

end SearchHouse
